import Mathlib

/-!
Verification of the availability/reservation core of `src/app.py`
(material reservation manager).  The Python functions over the SQL store
are embedded as pure Lean functions over an explicit database state:
SQL joins become sums over filtered lists, `scalar_one` failure and Python
exceptions become an outer `Option`, and SQL `NULL` stock becomes an inner
`Option` (none = unlimited).
-/

namespace Reserva

/-- Row of the `materials` table: `stock` is nullable (NULL = unlimited). -/
structure Material where
  id : Nat
  nom : String := ""
  descripcio : String := ""
  stock : Option Int
deriving Repr, DecidableEq

/-- Row of the `sports` table. -/
structure Sport where
  id : Nat
  nom : String := ""
  mode : String
  descripcio : String := ""
deriving Repr, DecidableEq

/-- Row of the `packs` table (each pack belongs to one sport). -/
structure Pack where
  id : Nat
  nom : String := ""
  descripcio : String := ""
  sport_id : Nat
deriving Repr, DecidableEq

/-- Row of the `pack_components` table. -/
structure PackComponent where
  pack_id : Nat
  material_id : Nat
  qty_required : Int
deriving Repr, DecidableEq

/-- Row of the `sport_material` join table. -/
structure SportMaterial where
  sport_id : Nat
  material_id : Nat
deriving Repr, DecidableEq

/-- The header fields inserted into `reserves` by `create_reservation`
(the `data_header` dict built in the submit handler): free-text contact
and responsible-person fields plus the two normalized instants. -/
structure Header where
  adreca_electronica : String := ""
  nom_centre : String := ""
  nif_cif : String := ""
  telefon : String := ""
  adreca : String := ""
  poblacio : String := ""
  codi_postal : String := ""
  data_recollida : Int := 0
  data_retorn : Int := 0
  responsable_nom : String := ""
  responsable_dni : String := ""
  responsable_telefon : String := ""
  responsable_email : String := ""
  responsable_poblacio : String := ""
  responsable_codi_postal : String := ""
deriving Repr, DecidableEq

/-- Row of the `reserves` table: identity, sport, the header columns
(grouped in `dades`), the state and the calendar back-reference. -/
structure Reserve where
  id : Nat
  sport_id : Nat
  dades : Header
  estat : String
  calendar_event_id : Option String := none
deriving Repr, DecidableEq

/-- Row of the `reserve_lines` table: exactly the nullable columns of the
schema (`material_id` or `pack_id`). -/
structure ReserveLine where
  reserva_id : Nat
  material_id : Option Nat
  pack_id : Option Nat
  qty : Int
deriving Repr, DecidableEq

/-- The persistent store: one list per table. -/
structure DB where
  materials : List Material := []
  sports : List Sport := []
  packs : List Pack := []
  pack_components : List PackComponent := []
  sport_material : List SportMaterial := []
  reserves : List Reserve := []
  reserve_lines : List ReserveLine := []
deriving Repr, DecidableEq

/-- `normalize_range`: pins the start date to 00:00:00 and the end date to
23:59:59 of their days.  Dates are modelled as day numbers, instants as
seconds (86400 per day), so day-start is `d * 86400` and day-end is
`d * 86400 + 86399`. -/
def normalize_range (start_date end_date : Int) : Int × Int :=
  (start_date * 86400, end_date * 86400 + 86399)

/-- `get_sport`: `SELECT ... FROM sports WHERE id = :sid` with `.first()`. -/
def get_sport (db : DB) (sid : Nat) : Option Sport :=
  db.sports.find? (fun s => s.id == sid)

/-- `get_materials_by_sport`: materials joined with `sport_material` rows of
the sport (the `ORDER BY m.nom` is dropped; no result below depends on
order). -/
def get_materials_by_sport (db : DB) (sid : Nat) : List Material :=
  db.materials.flatMap (fun m =>
    (db.sport_material.filter
      (fun sm => sm.material_id == m.id && sm.sport_id == sid)).map (fun _ => m))

/-- `get_pack_for_sport`: `SELECT ... FROM packs WHERE sport_id = :sid` with
`.first()` (0..1 pack per sport). -/
def get_pack_for_sport (db : DB) (sid : Nat) : Option Pack :=
  db.packs.find? (fun p => p.sport_id == sid)

/-- Result row of `get_pack_components` (join of `pack_components` with
`materials`). -/
structure CompRow where
  material_id : Nat
  qty_required : Int
  nom : String
  stock : Option Int
deriving Repr, DecidableEq

/-- `get_pack_components`: components of the pack joined with their material
row (`ORDER BY m.nom` dropped; the min below is order-insensitive). -/
def get_pack_components (db : DB) (pid : Nat) : List CompRow :=
  db.pack_components.flatMap (fun pc =>
    if pc.pack_id == pid then
      (db.materials.filter (fun m => m.id == pc.material_id)).map
        (fun m => ⟨pc.material_id, pc.qty_required, m.nom, m.stock⟩)
    else [])

/-- The SQL overlap condition of `get_material_available`:
`:end_ts > r.data_recollida AND :start_ts < r.data_retorn`. -/
def overlapsQuery (s e : Int) (r : Reserve) : Bool :=
  decide (e > r.dades.data_recollida) && decide (s < r.dades.data_retorn)

/-- The `direct_reserved` CTE: `SUM(rl.qty)` over `reserve_lines` joined to
`reserves`, filtered to confirmed overlapping reservations of the
material. -/
def direct_reserved (db : DB) (mid : Nat) (s e : Int) : Int :=
  (db.reserve_lines.map (fun rl =>
    ((db.reserves.filter (fun r => r.id == rl.reserva_id)).map (fun r =>
      if rl.material_id == some mid && r.estat == "confirmada" &&
          overlapsQuery s e r
      then rl.qty else 0)).sum)).sum

/-- The `packs_reserved` CTE: `SUM(rl.qty * pc.qty_required)` over
`reserve_lines` joined to `reserves` and to `pack_components` on
`pc.pack_id = rl.pack_id`, filtered to confirmed overlapping pack lines
whose pack contains the material. -/
def packs_reserved (db : DB) (mid : Nat) (s e : Int) : Int :=
  (db.reserve_lines.map (fun rl =>
    ((db.reserves.filter (fun r => r.id == rl.reserva_id)).map (fun r =>
      ((db.pack_components.filter
          (fun pc => rl.pack_id == some pc.pack_id)).map (fun pc =>
        if rl.pack_id.isSome && pc.material_id == mid &&
            r.estat == "confirmada" && overlapsQuery s e r
        then rl.qty * pc.qty_required else 0)).sum)).sum)).sum

/-- `get_material_available`: outer `none` models `scalar_one` raising when
the material row does not exist; the inner `Option` is the nullable result
(`NULL` stock propagates to `NULL` = unlimited); otherwise
`GREATEST(stock - (direct + packs), 0)`. -/
def get_material_available (db : DB) (mid : Nat) (s e : Int) :
    Option (Option Int) :=
  (db.materials.find? (fun m => m.id == mid)).map (fun m =>
    m.stock.map (fun stock =>
      max (stock - (direct_reserved db mid s e + packs_reserved db mid s e)) 0))

/-- Python's `min` on a list of ints (the `[]` case is junk, never used on an
empty list below, where Python would raise). -/
def list_min : List Int → Int
  | [] => 0
  | [x] => x
  | x :: y :: t => min x (list_min (y :: t))

/-- The component loop of `get_pack_available`: returns the accumulated
`per_component` list (Python floor divisions `avail // qty_required`) and the
`has_infinite` flag; `none` when some `get_material_available` call raises. -/
def pack_scan (db : DB) (s e : Int) : List CompRow → Option (List Int × Bool)
  | [] => some ([], false)
  | c :: rest =>
    match get_material_available db c.material_id s e with
    | none => none
    | some avail =>
      match pack_scan db s e rest with
      | none => none
      | some (per, inf) =>
        match avail with
        | none => some (per, true)
        | some v => some (Int.fdiv v c.qty_required :: per, inf)

/-- `get_pack_available`: 0 for a component-less pack; otherwise the minimum
of the per-component floor divisions, `None` (unlimited) when every
component is unlimited. -/
def get_pack_available (db : DB) (pid : Nat) (s e : Int) :
    Option (Option Int) :=
  if (get_pack_components db pid).isEmpty then some (some 0)
  else
    match pack_scan db s e (get_pack_components db pid) with
    | none => none
    | some (per, inf) =>
      if inf then
        if per.isEmpty then some none else some (some (list_min per))
      else
        if per.isEmpty then some (some 0) else some (some (list_min per))

/-- Pack descriptor returned by `get_availability_map` (the dict with keys
`pack_id`, `pack_nom`, `pack_available`). -/
structure PackInfo where
  pack_id : Option Nat
  pack_nom : String
  pack_available : Option Int
deriving Repr, DecidableEq

/-- `get_availability_map`: empty map and no descriptor for an unknown
sport; per-material availabilities for a flexible sport; the pack
descriptor otherwise, with the `(sense pack)` marker when the sport has no
pack.  Outer `none` models a raising availability query. -/
def get_availability_map (db : DB) (sid : Nat) (s e : Int) :
    Option (List (Nat × Option Int) × Option PackInfo) :=
  match get_sport db sid with
  | none => some ([], none)
  | some sport =>
    if sport.mode == "flexible" then
      match (get_materials_by_sport db sid).mapM (fun m =>
          (get_material_available db m.id s e).map (fun a => (m.id, a))) with
      | none => none
      | some rows => some (rows, none)
    else
      match get_pack_for_sport db sid with
      | none => some ([], some ⟨none, "(sense pack)", some 0⟩)
      | some pack =>
        match get_pack_available db pack.id s e with
        | none => none
        | some pa => some ([], some ⟨some pack.id, pack.nom, pa⟩)

/-- One entry of the submit handler's `selected_lines`:
`(kind, ref_id, qty)` with `kind` the string "material" or "pack". -/
structure LineSel where
  kind : String
  ref_id : Nat
  qty : Int
deriving Repr, DecidableEq

/-- Modelled from the spec: the `reserves` table schema (its column
defaults) is not under `src/`; the spec says a new reservation is persisted
in state `confirmed`, so the `estat` column default is `confirmada`. -/
def default_estat : String := "confirmada"

/-- The per-line insert of `create_reservation`: a `kind == "material"` line
gets only `material_id` set; any other kind falls into the `else` branch and
gets only `pack_id` set. -/
def line_row (res_id : Nat) (l : LineSel) : ReserveLine :=
  if l.kind == "material" then ⟨res_id, some l.ref_id, none, l.qty⟩
  else ⟨res_id, none, some l.ref_id, l.qty⟩

/-- `create_reservation`: inside one `engine.begin()` transaction, insert
the header row (returning `res_id`, here a parameter standing for the
store-generated key) and one row per line.  The transaction is modelled as
a single state update. -/
def create_reservation (db : DB) (res_id : Nat) (data_header : Header)
    (lines : List LineSel) (sport_id : Nat) : DB :=
  { db with
    reserves := db.reserves ++ [⟨res_id, sport_id, data_header, default_estat, none⟩],
    reserve_lines := db.reserve_lines ++ lines.map (line_row res_id) }

/-- `mark_finished_reservations`:
`UPDATE reserves SET estat='finalitzada' WHERE estat='confirmada' AND data_retorn < :now`. -/
def mark_finished_reservations (db : DB) (now : Int) : DB :=
  { db with
    reserves := db.reserves.map (fun r =>
      if r.estat == "confirmada" && decide (r.dades.data_retorn < now) then
        { r with estat := "finalitzada" }
      else r) }

/-- `update_reservation_status`:
`UPDATE reserves SET estat=:estat WHERE id=:id` — unconditional. -/
def update_reservation_status (db : DB) (res_id : Nat) (new_status : String) :
    DB :=
  { db with
    reserves := db.reserves.map (fun r =>
      if r.id == res_id then { r with estat := new_status } else r) }

/-- `update_reservation_status_with_calendar`: deletes the linked calendar
event (an external, best-effort side effect — no store change) and then
performs the same unconditional status update. -/
def update_reservation_status_with_calendar (db : DB) (res_id : Nat)
    (new_status : String) : DB :=
  update_reservation_status db res_id new_status

/-- The admin console's guard (lines 590–605 of `app.py`): the Cancel·lar /
Finalitzar buttons are rendered `disabled` when the reservation is already
in a terminal state. -/
def disabled_by_status (r : Reserve) : Bool :=
  r.estat == "cancel·lada" || r.estat == "finalitzada"

/-- The button-driven admin transition: a disabled button cannot fire, so
for a terminal reservation no update runs; otherwise the chosen action maps
to `cancel·lada` or `finalitzada` via `update_reservation_status_with_calendar`. -/
def admin_transition (db : DB) (res_id : Nat) (act : String) : DB :=
  match db.reserves.find? (fun r => r.id == res_id) with
  | none => db
  | some r =>
    if disabled_by_status r then db
    else
      update_reservation_status_with_calendar db res_id
        (if act == "cancel" then "cancel·lada" else "finalitzada")

/-- Outcome of the submit handler's validation chain (line 462–468 of
`app.py`): a reported validation error, a raised Python `NameError`, or
fall-through to the availability re-check. -/
inductive SubmitOutcome where
  | validationError (msg : String)
  | nameError (missing_name : String)
  | proceed
deriving Repr, DecidableEq

/-- The validation chain run when the submit button fires.  Line 463 reads
`not adreca_electronica or not nom_centre or not nif_cif or not telefon_centre
or not adreça_centre or ...` with Python short-circuit evaluation; the name
`adreça_centre` (with cedilla) is never assigned — the widget binds
`adreca_centre` — so once the first four operands are non-empty the chain
raises `NameError` and the date/line checks are unreachable. -/
def submit_validation (h : Header) (_data_recollida _data_retorn : Int)
    (_selected_lines : List LineSel) : SubmitOutcome :=
  if h.adreca_electronica == "" || h.nom_centre == "" || h.nif_cif == "" ||
      h.telefon == "" then
    SubmitOutcome.validationError "Omple tots els camps obligatoris (*)"
  else
    SubmitOutcome.nameError "adreça_centre"

/-- The availability re-check loop (lines 472–487): for each selected line,
recompute the availability for the definitive range and flag the line when
`avail is not None and qty > avail`; `ok_all` starts `True` and is set
`False` by any failing line.  Outer `none` models a raising availability
query. -/
def revalidate (db : DB) (mode : String) (s e : Int) :
    List LineSel → Option Bool
  | [] => some true
  | l :: rest =>
    match
      (if mode == "flexible" then get_material_available db l.ref_id s e
       else get_pack_available db l.ref_id s e) with
    | none => none
    | some avail =>
      let fails : Bool :=
        match avail with
        | some v => decide (l.qty > v)
        | none => false
      (revalidate db mode s e rest).map (fun ok => !fails && ok)

/-- The tail of the submit handler after the validation chain passed
(lines 470–506): re-validate every line against the definitive normalized
range and only when `ok_all` call `create_reservation`; otherwise nothing
is written. -/
def submit_after_validation (db : DB) (res_id : Nat) (data_header : Header)
    (mode : String) (lines : List LineSel) (sport_id : Nat) (s e : Int) :
    Option DB :=
  match revalidate db mode s e lines with
  | none => none
  | some ok_all =>
    if ok_all then some (create_reservation db res_id data_header lines sport_id)
    else some db

/-! ## Spec-side formulations

The spec describes the two demand components in terms of each line's
*parent reservation*; these definitions follow the spec's words and are
proved equal to the SQL-join embedding above (assuming distinct reservation
ids, as for a primary key). -/

/-- The parent reservation of a line (the reservation its `reserva_id`
names). -/
def parent_reserve (db : DB) (rl : ReserveLine) : Option Reserve :=
  db.reserves.find? (fun r => r.id == rl.reserva_id)

/-- Spec: a line contributes demand when its parent reservation is
confirmed and its interval overlaps the query interval. -/
def counts_demand (db : DB) (s e : Int) (rl : ReserveLine) : Bool :=
  match parent_reserve db rl with
  | some r => r.estat == "confirmada" && overlapsQuery s e r
  | none => false

/-- Spec: direct demand = sum of `qty` over all confirmed reservation lines
referencing this material whose parent reservation overlaps the query. -/
def spec_direct_demand (db : DB) (mid : Nat) (s e : Int) : Int :=
  ((db.reserve_lines.filter (fun rl =>
      rl.material_id == some mid && counts_demand db s e rl)).map
    (fun rl => rl.qty)).sum

/-- Total `qty_required` of the material inside the pack (a single
component row in a well-formed catalog). -/
def pack_qty_required (db : DB) (pid mid : Nat) : Int :=
  ((db.pack_components.filter (fun pc =>
      pc.pack_id == pid && pc.material_id == mid)).map
    (fun pc => pc.qty_required)).sum

/-- Spec: pack-derived demand = sum over all confirmed overlapping pack
lines of `line.qty * component.qty_required` for the pack's component rows
of this material. -/
def spec_pack_demand (db : DB) (mid : Nat) (s e : Int) : Int :=
  ((db.reserve_lines.filter (fun rl =>
      rl.pack_id.isSome && counts_demand db s e rl)).map
    (fun rl => rl.qty * pack_qty_required db (rl.pack_id.getD 0) mid)).sum

/-! ## Helper lemmas -/

theorem sum_map_filter_eq {α : Type} (l : List α) (p : α → Bool) (f : α → Int) :
    ((l.filter p).map f).sum = (l.map (fun a => if p a then f a else 0)).sum := by
  induction l with
  | nil => rfl
  | cons a t ih =>
    by_cases h : p a <;> simp [List.filter_cons, h, ih]

theorem filter_id_eq_find? (l : List Reserve) (x : Nat)
    (h : (l.map Reserve.id).Nodup) :
    l.filter (fun r => r.id == x) = (l.find? (fun r => r.id == x)).toList := by
  induction l with
  | nil => rfl
  | cons a t ih =>
    rw [List.map_cons, List.nodup_cons] at h
    by_cases ha : a.id == x
    · have hax : a.id = x := by simpa using ha
      have : t.filter (fun r => r.id == x) = [] := by
        refine List.filter_eq_nil_iff.mpr ?_
        intro r hr hrx
        exact h.1 (by simpa [hax, show r.id = x by simpa using hrx] using
          List.mem_map_of_mem Reserve.id hr)
      simp [List.filter_cons, List.find?, ha, this]
    · simp [List.filter_cons, List.find?, ha, ih h.2]

theorem direct_reserved_eq_spec (db : DB) (mid : Nat) (s e : Int)
    (h : (db.reserves.map Reserve.id).Nodup) :
    direct_reserved db mid s e = spec_direct_demand db mid s e := by
  unfold direct_reserved spec_direct_demand
  rw [sum_map_filter_eq]
  refine congrArg List.sum (List.map_congr_left ?_)
  intro rl _
  rw [filter_id_eq_find? db.reserves rl.reserva_id h]
  unfold counts_demand parent_reserve
  cases hf : db.reserves.find? (fun r => r.id == rl.reserva_id) with
  | none => simp
  | some r =>
    by_cases hm : rl.material_id = some mid <;>
      by_cases hc : r.estat = "confirmada" <;>
        by_cases ho : overlapsQuery s e r <;> simp [hm, hc, ho]

theorem pack_line_sum (db : DB) (q : Int) (p mid : Nat) :
    (db.pack_components.map (fun pc =>
      if pc.pack_id == p && pc.material_id == mid then q * pc.qty_required
      else 0)).sum = q * pack_qty_required db p mid := by
  unfold pack_qty_required
  rw [sum_map_filter_eq, ← List.sum_map_mul_left]
  refine congrArg List.sum (List.map_congr_left ?_)
  intro pc _
  by_cases h1 : pc.pack_id = p <;> by_cases h2 : pc.material_id = mid <;>
    simp [h1, h2]

theorem packs_reserved_eq_spec (db : DB) (mid : Nat) (s e : Int)
    (h : (db.reserves.map Reserve.id).Nodup) :
    packs_reserved db mid s e = spec_pack_demand db mid s e := by
  unfold packs_reserved spec_pack_demand
  rw [sum_map_filter_eq]
  refine congrArg List.sum (List.map_congr_left ?_)
  intro rl _
  rw [filter_id_eq_find? db.reserves rl.reserva_id h]
  unfold counts_demand parent_reserve
  cases hf : db.reserves.find? (fun r => r.id == rl.reserva_id) with
  | none => simp
  | some r =>
    cases hp : rl.pack_id with
    | none => simp
    | some p =>
      by_cases hc : r.estat = "confirmada" <;>
        by_cases ho : overlapsQuery s e r
      · simp only [hc, ho, Option.toList, List.map_cons, List.map_nil,
          List.sum_cons, List.sum_nil, add_zero, Option.isSome_some,
          Option.getD_some, beq_self_eq_true, Bool.true_and, Bool.and_true,
          if_true]
        rw [← pack_line_sum db rl.qty p mid, sum_map_filter_eq]
        refine congrArg List.sum (List.map_congr_left ?_)
        intro pc _
        rcases eq_or_ne pc.pack_id p with h1 | h1
        · simp [h1]
        · simp [h1, Ne.symm h1]
      · simp [hc, ho]
      · simp [hc, ho]
      · simp [hc, ho]

theorem direct_reserved_append (db : DB) (r : Reserve) (ls : List ReserveLine)
    (mid : Nat) (s e : Int) (hr : r.estat ≠ "confirmada")
    (hl : ∀ l ∈ ls, l.reserva_id = r.id)
    (hfresh : ∀ r0 ∈ db.reserves, r0.id ≠ r.id) :
    direct_reserved
      { db with reserves := db.reserves ++ [r],
                reserve_lines := db.reserve_lines ++ ls } mid s e
      = direct_reserved db mid s e := by
  unfold direct_reserved
  simp only [List.map_append, List.sum_append, List.filter_append]
  have hg : ∀ rl : ReserveLine,
      (([r].filter (fun r0 => r0.id == rl.reserva_id)).map (fun r0 =>
        if rl.material_id == some mid && r0.estat == "confirmada" &&
            overlapsQuery s e r0 then rl.qty else 0)).sum = 0 := by
    intro rl
    by_cases hc : r.id == rl.reserva_id <;> simp [List.filter, hc, hr]
  simp only [hg, add_zero]
  have e3 : (List.map (fun rl =>
      ((db.reserves.filter (fun r0 => r0.id == rl.reserva_id)).map (fun r0 =>
        if rl.material_id == some mid && r0.estat == "confirmada" &&
            overlapsQuery s e r0 then rl.qty else 0)).sum) ls).sum = 0 := by
    refine List.sum_eq_zero ?_
    intro x hx
    rcases List.mem_map.mp hx with ⟨rl, hrl, rfl⟩
    have hnil : db.reserves.filter (fun r0 => r0.id == rl.reserva_id) = [] := by
      refine List.filter_eq_nil_iff.mpr ?_
      intro r0 h0
      simp [hl rl hrl, hfresh r0 h0]
    rw [hnil]
    rfl
  rw [e3, add_zero]

theorem packs_reserved_append (db : DB) (r : Reserve) (ls : List ReserveLine)
    (mid : Nat) (s e : Int) (hr : r.estat ≠ "confirmada")
    (hl : ∀ l ∈ ls, l.reserva_id = r.id)
    (hfresh : ∀ r0 ∈ db.reserves, r0.id ≠ r.id) :
    packs_reserved
      { db with reserves := db.reserves ++ [r],
                reserve_lines := db.reserve_lines ++ ls } mid s e
      = packs_reserved db mid s e := by
  unfold packs_reserved
  simp only [List.map_append, List.sum_append, List.filter_append]
  have hg : ∀ rl : ReserveLine,
      (([r].filter (fun r0 => r0.id == rl.reserva_id)).map (fun r0 =>
        ((db.pack_components.filter
            (fun pc => rl.pack_id == some pc.pack_id)).map (fun pc =>
          if rl.pack_id.isSome && pc.material_id == mid &&
              r0.estat == "confirmada" && overlapsQuery s e r0
          then rl.qty * pc.qty_required else 0)).sum)).sum = 0 := by
    intro rl
    by_cases hc : r.id == rl.reserva_id <;> simp [List.filter, hc, hr]
  simp only [hg, add_zero]
  have e3 : (List.map (fun rl =>
      ((db.reserves.filter (fun r0 => r0.id == rl.reserva_id)).map (fun r0 =>
        ((db.pack_components.filter
            (fun pc => rl.pack_id == some pc.pack_id)).map (fun pc =>
          if rl.pack_id.isSome && pc.material_id == mid &&
              r0.estat == "confirmada" && overlapsQuery s e r0
          then rl.qty * pc.qty_required else 0)).sum)).sum) ls).sum = 0 := by
    refine List.sum_eq_zero ?_
    intro x hx
    rcases List.mem_map.mp hx with ⟨rl, hrl, rfl⟩
    have hnil : db.reserves.filter (fun r0 => r0.id == rl.reserva_id) = [] := by
      refine List.filter_eq_nil_iff.mpr ?_
      intro r0 h0
      simp [hl rl hrl, hfresh r0 h0]
    rw [hnil]
    rfl
  rw [e3, add_zero]

/-! ## Claim theorems -/

/-- C1: for every material with finite stock and every query interval,
`get_material_available` returns the stock minus the sum of the direct
overlapping confirmed demand and the pack-derived overlapping confirmed
demand, clamped at 0 (never negative); and reservations whose state is not
`confirmada` never reduce the result (adding a non-confirmed reservation
and its lines leaves the availability unchanged). -/
theorem C1_material_available_formula (db : DB) (mid : Nat) (s e : Int)
    (m : Material) (stock : Int)
    (hm : db.materials.find? (fun x => x.id == mid) = some m)
    (hstock : m.stock = some stock)
    (hids : (db.reserves.map Reserve.id).Nodup) :
    get_material_available db mid s e =
      some (some (max (stock -
        (spec_direct_demand db mid s e + spec_pack_demand db mid s e)) 0))
    ∧ (∀ v, get_material_available db mid s e = some (some v) → 0 ≤ v)
    ∧ (∀ (r : Reserve) (ls : List ReserveLine), r.estat ≠ "confirmada" →
        (∀ l ∈ ls, l.reserva_id = r.id) →
        (∀ r0 ∈ db.reserves, r0.id ≠ r.id) →
        get_material_available
          { db with reserves := db.reserves ++ [r],
                    reserve_lines := db.reserve_lines ++ ls } mid s e
          = get_material_available db mid s e) := by
  refine ⟨?_, ?_, ?_⟩
  · unfold get_material_available
    rw [hm, direct_reserved_eq_spec db mid s e hids,
      packs_reserved_eq_spec db mid s e hids]
    simp [hstock]
  · intro v hv
    unfold get_material_available at hv
    rw [hm] at hv
    simp [hstock] at hv
    omega
  · intro r ls hr hl hfresh
    unfold get_material_available
    rw [direct_reserved_append db r ls mid s e hr hl hfresh,
      packs_reserved_append db r ls mid s e hr hl hfresh]

/-- The spec's "Cones" scenario: stock 10, one confirmed reservation of
6 units over the days `[1, 5]` (normalized instants). -/
def conesDB : DB :=
  { materials := [⟨1, "Cones", "", some 10⟩],
    reserves := [⟨1, 1, { data_recollida := 86400, data_retorn := 518399 }, "confirmada", none⟩],
    reserve_lines := [⟨1, some 1, none, 6⟩] }

theorem C1_material_available_formula_witness :
    get_material_available conesDB 1 259200 950399 = some (some 4) := by
  have h := C1_material_available_formula conesDB 1 259200 950399
    ⟨1, "Cones", "", some 10⟩ 10 rfl rfl (by decide)
  rw [h.1]
  rfl

/-- C6: a material whose `stock` is null (unlimited) yields
`material_available = None` for every interval, over any database state —
in particular regardless of how many confirmed overlapping reservations
exist for it. -/
theorem C6_unlimited_propagation (db : DB) (mid : Nat) (s e : Int)
    (m : Material) (hm : db.materials.find? (fun x => x.id == mid) = some m)
    (hstock : m.stock = none) :
    get_material_available db mid s e = some none := by
  unfold get_material_available
  rw [hm]
  simp [hstock]

/-- An unlimited material with a large confirmed overlapping reservation. -/
def unlimitedDB : DB :=
  { materials := [⟨2, "Ball", "", none⟩],
    reserves := [⟨1, 1, { data_recollida := 0, data_retorn := 950399 }, "confirmada", none⟩],
    reserve_lines := [⟨1, some 2, none, 100⟩] }

theorem C6_unlimited_propagation_witness :
    get_material_available unlimitedDB 2 0 86399 = some none :=
  C6_unlimited_propagation unlimitedDB 2 0 86399 ⟨2, "Ball", "", none⟩ rfl rfl

/-- A database with a single confirmed reservation over `[rs, re]` holding
one direct line of `q` units of the material. -/
def oneReservationDB (stock q : Int) (mid : Nat) (rs re : Int) : DB :=
  { materials := [⟨mid, "m", "", some stock⟩],
    reserves := [⟨1, 1, { data_recollida := rs, data_retorn := re }, "confirmada", none⟩],
    reserve_lines := [⟨1, some mid, none, q⟩] }

theorem oneReservation_gma (stock q : Int) (mid : Nat) (rs re qs qe : Int) :
    get_material_available (oneReservationDB stock q mid rs re) mid qs qe
      = some (some (max (stock - (if qe > rs ∧ qs < re then q else 0)) 0)) := by
  unfold get_material_available oneReservationDB direct_reserved packs_reserved
    overlapsQuery
  by_cases h1 : rs < qe <;> by_cases h2 : qs < re <;>
    simp [List.filter, List.find?, h1, h2]

/-- C2: a confirmed reservation's demand is counted iff
`q.end > r.start ∧ q.start < r.end`; touching endpoints (`q.end = r.start`
or `q.start = r.end`) never count; and with day-normalized instants a query
starting at day-start of day `5` still overlaps a reservation ending at
end-of-day `5`, while a query starting on day `6` does not. -/
theorem C2_overlap_semantics (stock q : Int) (mid : Nat) (rs re qs qe : Int) :
    (qe > rs ∧ qs < re →
      get_material_available (oneReservationDB stock q mid rs re) mid qs qe
        = some (some (max (stock - q) 0)))
    ∧ (¬(qe > rs ∧ qs < re) →
      get_material_available (oneReservationDB stock q mid rs re) mid qs qe
        = some (some (max stock 0)))
    ∧ (qe = rs →
      get_material_available (oneReservationDB stock q mid rs re) mid qs qe
        = some (some (max stock 0)))
    ∧ (qs = re →
      get_material_available (oneReservationDB stock q mid rs re) mid qs qe
        = some (some (max stock 0)))
    ∧ (get_material_available
        (oneReservationDB stock q mid (normalize_range 1 5).1 (normalize_range 1 5).2)
        mid (normalize_range 5 10).1 (normalize_range 5 10).2
        = some (some (max (stock - q) 0)))
    ∧ (get_material_available
        (oneReservationDB stock q mid (normalize_range 1 5).1 (normalize_range 1 5).2)
        mid (normalize_range 6 10).1 (normalize_range 6 10).2
        = some (some (max stock 0))) := by
  refine ⟨?_, ?_, ?_, ?_, ?_, ?_⟩
  · intro h
    rw [oneReservation_gma]
    simp [h]
  · intro h
    rw [oneReservation_gma]
    simp [if_neg h]
  · intro h
    rw [oneReservation_gma]
    have : ¬(qe > rs ∧ qs < re) := by omega
    simp [if_neg this]
  · intro h
    rw [oneReservation_gma]
    have : ¬(qe > rs ∧ qs < re) := by omega
    simp [if_neg this]
  · rw [oneReservation_gma]
    norm_num [normalize_range]
  · rw [oneReservation_gma]
    norm_num [normalize_range]

theorem C2_overlap_semantics_witness :
    get_material_available (oneReservationDB 10 6 1 86400 518399) 1 259200 950399
      = some (some 4) := by
  have h := (C2_overlap_semantics 10 6 1 86400 518399 259200 950399).1
    ⟨by norm_num, by norm_num⟩
  simpa using h

/-- The per-component floor divisions of the bounded components, as the
spec words them ("components with bounded availability", unbounded ones
excluded). -/
def bounded_divs (db : DB) (s e : Int) (comps : List CompRow) : List Int :=
  comps.filterMap (fun c =>
    match get_material_available db c.material_id s e with
    | some (some v) => some (Int.fdiv v c.qty_required)
    | _ => none)

theorem pack_scan_eq (db : DB) (s e : Int) (comps : List CompRow)
    (h : ∀ c ∈ comps, (get_material_available db c.material_id s e).isSome) :
    pack_scan db s e comps = some (bounded_divs db s e comps,
      comps.any (fun c =>
        get_material_available db c.material_id s e == some none)) := by
  induction comps with
  | nil => rfl
  | cons c t ih =>
    have hc := h c (List.mem_cons_self c t)
    obtain ⟨a, ha⟩ := Option.isSome_iff_exists.mp hc
    have ht := ih (fun x hx => h x (List.mem_cons_of_mem c hx))
    simp only [pack_scan, ha, ht]
    cases a with
    | none => simp [bounded_divs, List.filterMap_cons, ha]
    | some v => simp [bounded_divs, List.filterMap_cons, ha]

theorem list_min_le : ∀ (l : List Int), ∀ x ∈ l, list_min l ≤ x
  | [], x, hx => by cases hx
  | [a], x, hx => by
    rcases List.mem_singleton.mp hx with rfl
    simp [list_min]
  | a :: b :: u, x, hx => by
    rcases List.mem_cons.mp hx with rfl | hx'
    · simp [list_min]
    · exact le_trans (min_le_right _ _) (list_min_le (b :: u) x hx')

/-- C3: `get_pack_available` returns 0 for a pack with no components,
unlimited when every component is unlimited, and otherwise the minimum over
the bounded components of `floor(material_available / qty_required)` — in
particular it is at most each bounded component's floor quotient. -/
theorem C3_pack_available (db : DB) (pid : Nat) (s e : Int)
    (hok : ∀ c ∈ get_pack_components db pid,
      (get_material_available db c.material_id s e).isSome) :
    (get_pack_components db pid = [] →
      get_pack_available db pid s e = some (some 0))
    ∧ (get_pack_components db pid ≠ [] →
        (∀ c ∈ get_pack_components db pid,
          get_material_available db c.material_id s e = some none) →
        get_pack_available db pid s e = some none)
    ∧ (bounded_divs db s e (get_pack_components db pid) ≠ [] →
        get_pack_available db pid s e
          = some (some (list_min (bounded_divs db s e (get_pack_components db pid))))
        ∧ ∀ x ∈ bounded_divs db s e (get_pack_components db pid),
            list_min (bounded_divs db s e (get_pack_components db pid)) ≤ x) := by
  refine ⟨?_, ?_, ?_⟩
  · intro h
    unfold get_pack_available
    simp [h]
  · intro hne hall
    unfold get_pack_available
    rw [pack_scan_eq db s e _ hok]
    have hbd : bounded_divs db s e (get_pack_components db pid) = [] := by
      refine List.filterMap_eq_nil_iff.mpr ?_
      intro c hc
      rw [hall c hc]
    have hany : (get_pack_components db pid).any (fun c =>
        get_material_available db c.material_id s e == some none) = true := by
      obtain ⟨c, t, hct⟩ := List.exists_cons_of_ne_nil hne
      rw [hct]
      simp [hall c (by rw [hct]; exact List.mem_cons_self c t)]
    simp [List.isEmpty_eq_true, hne, hbd, hany]
  · intro hbd
    have hcomp : get_pack_components db pid ≠ [] := by
      intro hc
      rw [hc] at hbd
      exact hbd rfl
    constructor
    · unfold get_pack_available
      rw [pack_scan_eq db s e _ hok]
      cases hany : (get_pack_components db pid).any (fun c =>
          get_material_available db c.material_id s e == some none) <;>
        simp [List.isEmpty_eq_true, hcomp, hbd]
    · intro x hx
      exact list_min_le _ x hx

/-- The spec's "Volleyball Kit" pack: 2 Nets (stock 3) and 1 Ball
(unlimited). -/
def volleyDB : DB :=
  { materials := [⟨1, "Net", "", some 3⟩, ⟨2, "Ball", "", none⟩],
    packs := [⟨1, "Volleyball Kit", "", 1⟩],
    pack_components := [⟨1, 1, 2⟩, ⟨1, 2, 1⟩] }

theorem C3_pack_available_witness :
    get_pack_available volleyDB 1 0 86399 = some (some 1) := by
  have h := ((C3_pack_available volleyDB 1 0 86399 (by decide)).2.2 (by decide)).1
  simpa using h

/-- The spec-level availability re-check for one candidate line: the
requested quantity must not exceed the recomputed availability, the check
being skipped when availability is unlimited. -/
def line_passes (db : DB) (mode : String) (s e : Int) (l : LineSel) : Prop :=
  ∀ v, (if mode == "flexible" then get_material_available db l.ref_id s e
        else get_pack_available db l.ref_id s e) = some (some v) → l.qty ≤ v

theorem revalidate_ok_iff (db : DB) (mode : String) (s e : Int)
    (lines : List LineSel) (ok : Bool)
    (h : revalidate db mode s e lines = some ok) :
    ok = true ↔ ∀ l ∈ lines, line_passes db mode s e l := by
  induction lines generalizing ok with
  | nil =>
    simp only [revalidate, Option.some.injEq] at h
    subst h
    simp
  | cons l rest ih =>
    simp only [revalidate] at h
    cases ha : (if mode == "flexible" then get_material_available db l.ref_id s e
        else get_pack_available db l.ref_id s e) with
    | none => rw [ha] at h; cases h
    | some avail =>
      rw [ha] at h
      cases hrest : revalidate db mode s e rest with
      | none => rw [hrest] at h; cases h
      | some okr =>
        rw [hrest] at h
        simp only [Option.map_some', Option.some.injEq] at h
        have hrest_iff := ih okr hrest
        cases avail with
        | none =>
          simp only [Bool.not_false, Bool.true_and] at h
          subst h
          have hp : line_passes db mode s e l := by
            intro v hv
            rw [ha] at hv
            cases hv
          rw [hrest_iff]
          constructor
          · intro hall x hx
            rcases List.mem_cons.mp hx with rfl | hx'
            · exact hp
            · exact hall x hx'
          · intro hall x hx
            exact hall x (List.mem_cons_of_mem l hx)
        | some v0 =>
          subst h
          rw [Bool.and_eq_true, Bool.not_eq_true', decide_eq_false_iff_not,
            hrest_iff]
          constructor
          · rintro ⟨h1, h2⟩ x hx
            rcases List.mem_cons.mp hx with rfl | hx'
            · intro v hv
              rw [ha] at hv
              injection hv with hv1
              injection hv1 with hv2
              subst hv2
              exact not_lt.mp h1
            · exact h2 x hx'
          · intro hall
            exact ⟨not_lt.mpr (hall l (List.mem_cons_self l rest) v0 ha),
              fun x hx => hall x (List.mem_cons_of_mem l hx)⟩

/-- C4: submission is all-or-nothing.  Given the re-check loop runs without
a raising lookup: if some candidate line fails the availability re-check
the store is returned unchanged (zero rows persisted); if every line
passes, exactly one reservation header row plus one row per line are
appended in a single state update, the other tables untouched. -/
theorem C4_atomic_submission (db : DB) (res_id : Nat) (hdr : Header)
    (mode : String) (lines : List LineSel) (sid : Nat) (s e : Int) (ok : Bool)
    (h : revalidate db mode s e lines = some ok) :
    ((∃ l ∈ lines, ¬ line_passes db mode s e l) →
      submit_after_validation db res_id hdr mode lines sid s e = some db)
    ∧ ((∀ l ∈ lines, line_passes db mode s e l) →
      submit_after_validation db res_id hdr mode lines sid s e
        = some { db with
            reserves := db.reserves ++ [⟨res_id, sid, hdr, default_estat, none⟩],
            reserve_lines := db.reserve_lines ++ lines.map (line_row res_id) }) := by
  constructor
  · rintro ⟨l, hl, hfail⟩
    simp only [submit_after_validation, h]
    have hok : ok ≠ true := by
      intro hok
      exact hfail ((revalidate_ok_iff db mode s e lines ok h).mp hok l hl)
    rw [if_neg hok]
  · intro hall
    simp only [submit_after_validation, h]
    rw [if_pos ((revalidate_ok_iff db mode s e lines ok h).mpr hall)]
    rfl

theorem C4_atomic_submission_witness :
    submit_after_validation conesDB 99 {} "flexible" [⟨"material", 1, 5⟩] 1
      259200 950399 = some conesDB := by
  have hfail : ¬ line_passes conesDB "flexible" 259200 950399 ⟨"material", 1, 5⟩ := by
    intro hp
    have h4 := hp 4 (by decide)
    have h5 : (5 : Int) ≤ 4 := h4
    omega
  exact (C4_atomic_submission conesDB 99 {} "flexible" [⟨"material", 1, 5⟩] 1
    259200 950399 false (by decide)).1 ⟨⟨"material", 1, 5⟩, by simp, hfail⟩

/-- A store holding one reservation already in the terminal state
`finalitzada`. -/
def terminalDB : DB :=
  { reserves := [⟨1, 1, {}, "finalitzada", none⟩] }

/-- C5 counterexample: cancelling a `finalitzada` reservation through the
state-transition operation does NOT leave it `finalitzada` — the SQL update
is unconditional, so the state becomes `cancel·lada` and the store
changes. -/
theorem C5_counterexample :
    (update_reservation_status_with_calendar terminalDB 1 "cancel·lada").reserves.map
        Reserve.estat = ["cancel·lada"]
    ∧ update_reservation_status_with_calendar terminalDB 1 "cancel·lada"
        ≠ terminalDB := by
  decide

/-- C5 amended: the update operation itself is unconditional, but
terminality is enforced at the admin interface boundary — the transition
buttons are disabled for a reservation whose state is terminal, so the
button-driven transition leaves such a reservation (and the whole store)
unchanged. -/
theorem C5_terminal_guard (db : DB) (rid : Nat) (act : String) (r : Reserve)
    (hr : db.reserves.find? (fun x => x.id == rid) = some r)
    (ht : disabled_by_status r = true) :
    admin_transition db rid act = db := by
  unfold admin_transition
  rw [hr]
  simp [ht]

theorem C5_terminal_guard_witness :
    admin_transition terminalDB 1 "cancel" = terminalDB :=
  C5_terminal_guard terminalDB 1 "cancel" ⟨1, 1, {}, "finalitzada", none⟩ rfl rfl

/-- A submission attempt whose first four checked fields are filled but
whose required field `responsable_email` is empty. -/
def headerMissingEmail : Header :=
  { adreca_electronica := "a@b.c", nom_centre := "Escola", nif_cif := "B123",
    telefon := "600000000", adreca := "C/ Major 1", codi_postal := "08001",
    responsable_nom := "Anna", responsable_dni := "1234X",
    responsable_telefon := "600111222", responsable_email := "" }

/-- C7: the validation chain never reports a validation error (and never
proceeds) once the four fields checked before the typo are non-empty — it
raises `NameError` on the undefined `adreça_centre` — so a submission with
an empty required field such as `responsable_email`, or with reversed
dates, or with no lines, crashes instead of being reported a validation
error; a write still never occurs (the exception precedes any store
call). -/
theorem C7_validation_chain_name_error :
    (∀ (h : Header) (d1 d2 : Int) (ls : List LineSel),
      h.adreca_electronica ≠ "" → h.nom_centre ≠ "" → h.nif_cif ≠ "" →
      h.telefon ≠ "" →
      submit_validation h d1 d2 ls = SubmitOutcome.nameError "adreça_centre")
    ∧ submit_validation headerMissingEmail 0 86399 []
        = SubmitOutcome.nameError "adreça_centre"
    ∧ ∀ msg, SubmitOutcome.nameError "adreça_centre"
        ≠ SubmitOutcome.validationError msg := by
  refine ⟨?_, rfl, ?_⟩
  · intro h d1 d2 ls h1 h2 h3 h4
    unfold submit_validation
    simp [h1, h2, h3, h4]
  · intro msg heq
    cases heq

theorem C7_validation_chain_name_error_witness :
    submit_validation headerMissingEmail 0 86399 [⟨"material", 1, 1⟩]
      = SubmitOutcome.nameError "adreça_centre" :=
  C7_validation_chain_name_error.1 headerMissingEmail 0 86399
    [⟨"material", 1, 1⟩] (by decide) (by decide) (by decide) (by decide)

/-- C8: the batch auto-completion sets exactly the `confirmada` reservations
whose `data_retorn` is strictly before `now` to `finalitzada`, and leaves
every other reservation unchanged (row count preserved, rows updated in
place). -/
theorem C8_mark_finished (db : DB) (now : Int) :
    (mark_finished_reservations db now).reserves.length = db.reserves.length
    ∧ ∀ (i : Nat) (h : i < db.reserves.length),
        (((db.reserves.get ⟨i, h⟩).estat = "confirmada"
            ∧ (db.reserves.get ⟨i, h⟩).dades.data_retorn < now) →
          (mark_finished_reservations db now).reserves[i]?
            = some { db.reserves.get ⟨i, h⟩ with estat := "finalitzada" })
        ∧ (¬((db.reserves.get ⟨i, h⟩).estat = "confirmada"
            ∧ (db.reserves.get ⟨i, h⟩).dades.data_retorn < now) →
          (mark_finished_reservations db now).reserves[i]?
            = some (db.reserves.get ⟨i, h⟩)) := by
  have hmap : (mark_finished_reservations db now).reserves
      = db.reserves.map (fun r =>
        if r.estat == "confirmada" && decide (r.dades.data_retorn < now) then
          { r with estat := "finalitzada" }
        else r) := rfl
  refine ⟨by rw [hmap]; simp, ?_⟩
  intro i h
  have hget : db.reserves[i]? = some (db.reserves.get ⟨i, h⟩) := by
    rw [List.getElem?_eq_getElem h]
    rfl
  constructor
  · intro hc
    have hb : ((db.reserves.get ⟨i, h⟩).estat == "confirmada" &&
        decide ((db.reserves.get ⟨i, h⟩).dades.data_retorn < now)) = true := by
      rw [Bool.and_eq_true, beq_iff_eq, decide_eq_true_eq]
      exact hc
    rw [hmap, List.getElem?_map, hget, Option.map_some', hb]
    rfl
  · intro hc
    have hb : ((db.reserves.get ⟨i, h⟩).estat == "confirmada" &&
        decide ((db.reserves.get ⟨i, h⟩).dades.data_retorn < now)) = false := by
      by_contra hb'
      rw [Bool.not_eq_false, Bool.and_eq_true, beq_iff_eq,
        decide_eq_true_eq] at hb'
      exact hc hb'
    rw [hmap, List.getElem?_map, hget, Option.map_some', hb]
    rfl

/-- One overdue confirmed reservation. -/
def pastDB : DB :=
  { reserves := [⟨1, 1, { data_recollida := 0, data_retorn := 100 }, "confirmada", none⟩] }

theorem C8_mark_finished_witness :
    (mark_finished_reservations pastDB 200).reserves[0]?
      = some ⟨1, 1, { data_recollida := 0, data_retorn := 100 }, "finalitzada", none⟩ := by
  have h := ((C8_mark_finished pastDB 200).2 0 (by decide)).1 ⟨rfl, by decide⟩
  exact h

/-- C9: every line row written by `create_reservation` references exactly
one of material or pack: a `"material"` line gets only `material_id` set,
and a line of any other kind (not just `"pack"`) falls into the `else`
branch and is persisted with only `pack_id` set. -/
theorem C9_line_exclusivity (db : DB) (res_id : Nat) (hdr : Header)
    (lines : List LineSel) (sid : Nat) :
    (create_reservation db res_id hdr lines sid).reserve_lines
      = db.reserve_lines ++ lines.map (line_row res_id)
    ∧ ∀ l ∈ lines,
        ((l.kind = "material" →
          line_row res_id l = ⟨res_id, some l.ref_id, none, l.qty⟩)
        ∧ (l.kind ≠ "material" →
          line_row res_id l = ⟨res_id, none, some l.ref_id, l.qty⟩)
        ∧ (((line_row res_id l).material_id.isSome
              ∧ (line_row res_id l).pack_id = none)
            ∨ ((line_row res_id l).material_id = none
              ∧ (line_row res_id l).pack_id.isSome))) := by
  refine ⟨rfl, ?_⟩
  intro l _
  by_cases hk : l.kind = "material" <;> simp [line_row, hk]

theorem C9_line_exclusivity_witness :
    line_row 7 ⟨"typo", 2, 3⟩ = ⟨7, none, some 2, 3⟩ :=
  ((C9_line_exclusivity {} 7 {} [⟨"typo", 2, 3⟩] 1).2 ⟨"typo", 2, 3⟩
    (by simp)).2.1 (by decide)

/-- C10: for an unknown sport id `get_availability_map` returns the empty
map and no pack descriptor; for a non-flexible (fixed-pack) sport with no
pack configured it returns the marker descriptor with `pack_id = None` and
`pack_available = 0`. -/
theorem C10_availability_map_degenerate (db : DB) (sid : Nat) (s e : Int) :
    (get_sport db sid = none →
      get_availability_map db sid s e = some ([], none))
    ∧ (∀ sport, get_sport db sid = some sport → sport.mode ≠ "flexible" →
        get_pack_for_sport db sid = none →
        get_availability_map db sid s e
          = some ([], some ⟨none, "(sense pack)", some 0⟩)) := by
  constructor
  · intro h
    unfold get_availability_map
    rw [h]
  · intro sport hs hm hp
    unfold get_availability_map
    rw [hs]
    have hb : (sport.mode == "flexible") = false := by simp [hm]
    simp [hb, hp]

/-- A fixed-pack sport with no pack configured. -/
def noPackDB : DB :=
  { sports := [⟨3, "Rugbi", "pack_fixe", ""⟩] }

theorem C10_availability_map_degenerate_witness :
    get_availability_map noPackDB 3 0 86399
      = some ([], some ⟨none, "(sense pack)", some 0⟩) :=
  (C10_availability_map_degenerate noPackDB 3 0 86399).2
    ⟨3, "Rugbi", "pack_fixe", ""⟩ rfl (by decide) rfl

end Reserva
